import Mathlib

/-!
Verification of the Blogger-export-to-Markdown converter (`legacy.py`).

Python strings are modelled as `List Char` (`PyStr`).  The script's string
operations (`in`, `startswith`, `replace`, `strip`, slicing) are modelled
below with Python's semantics: `str.replace` replaces every non-overlapping
occurrence of the pattern, scanning left to right.
-/

/-- Python strings, modelled as lists of characters. -/
abbrev PyStr := List Char

/-- Python `s.startswith(pat)`, as a check that `pat` is a prefix of `s`
(arguments: pattern first, then the string). -/
def pyStartsWith : PyStr → PyStr → Bool
  | [], _ => true
  | _ :: _, [] => false
  | a :: as, b :: bs => a == b && pyStartsWith as bs

/-- Python `needle in hay` for strings: contiguous-substring containment
(the empty needle is contained in every string). -/
def pyIn (needle : PyStr) : PyStr → Bool
  | [] => needle.isEmpty
  | c :: rest => pyStartsWith needle (c :: rest) || pyIn needle rest

/-- If `pat` is a prefix of `s`, return the remainder of `s` after `pat`;
otherwise `none`. -/
def dropPre : PyStr → PyStr → Option PyStr
  | [], s => some s
  | _ :: _, [] => none
  | a :: as, b :: bs => if a == b then dropPre as bs else none

/-- Fuel-driven core of Python `str.replace`: scan left to right, replacing
each non-overlapping occurrence of `pat` by `new` and continuing after the
replacement.  The fuel only bounds recursion depth; with `pat ≠ []` and fuel
at least the length of the string, behaviour is fuel-independent. -/
def pyReplaceFuel (pat new : PyStr) : Nat → PyStr → PyStr
  | 0, s => s
  | fuel + 1, s =>
    match s with
    | [] => []
    | c :: rest =>
      match dropPre pat s with
      | some rem => new ++ pyReplaceFuel pat new fuel rem
      | none => c :: pyReplaceFuel pat new fuel rest

/-- Python `s.replace(old, new)`: every non-overlapping occurrence of `old`
in `s` is replaced by `new`, scanning left to right.  For the empty pattern,
Python inserts `new` before every character and at the end. -/
def pyReplace (s old new : PyStr) : PyStr :=
  match old with
  | [] => new ++ s.flatMap (fun c => c :: new)
  | _ :: _ => pyReplaceFuel old new s.length s

/-- Python whitespace test for the characters `str.strip()` removes,
restricted to the ASCII range (space, tab, newline, carriage return,
vertical tab, form feed); exotic Unicode space characters are elided. -/
def pyIsSpace (c : Char) : Bool :=
  c == ' ' || c == '\t' || c == '\n' || c == '\r' || c.toNat == 11 || c.toNat == 12

/-- Lexicographic (code-point) order on Python strings, as used by
`sorted()` on `str` keys. -/
def pyStrLt : PyStr → PyStr → Bool
  | [], [] => false
  | [], _ :: _ => true
  | _ :: _, [] => false
  | a :: as, b :: bs => if a < b then true else if b < a then false else pyStrLt as bs

/-- Dropping a pattern that sits literally at the front succeeds and leaves
the rest of the string. -/
theorem dropPre_append (pat v : PyStr) : dropPre pat (pat ++ v) = some v := by
  induction pat with
  | nil => rfl
  | cons a as ih => simp [dropPre, ih]

/-- A pattern fails to drop exactly when it is not a prefix. -/
theorem dropPre_none_iff (pat s : PyStr) :
    dropPre pat s = none ↔ pyStartsWith pat s = false := by
  induction pat generalizing s with
  | nil => simp [dropPre, pyStartsWith]
  | cons a as ih =>
    cases s with
    | nil => simp [dropPre, pyStartsWith]
    | cons b bs =>
      by_cases hab : a == b
      · simp [dropPre, pyStartsWith, hab, ih]
      · simp [dropPre, pyStartsWith, hab]

/-- A successful `dropPre` consumes exactly the pattern's length. -/
theorem dropPre_some_length (pat s rem : PyStr) (h : dropPre pat s = some rem) :
    s.length = pat.length + rem.length := by
  induction pat generalizing s with
  | nil => simp [dropPre] at h; subst h; simp
  | cons a as ih =>
    cases s with
    | nil => simp [dropPre] at h
    | cons b bs =>
      by_cases hab : a == b
      · simp [dropPre, hab] at h
        have := ih bs h
        simp [this]; omega
      · simp [dropPre, hab] at h

/-- The fuel argument of `pyReplaceFuel` is irrelevant once it covers the
length of the string, for a nonempty pattern. -/
theorem pyReplaceFuel_congr (pat new : PyStr) (hp : pat ≠ []) :
    ∀ f1 : Nat, ∀ s : PyStr, ∀ f2 : Nat, s.length ≤ f1 → s.length ≤ f2 →
      pyReplaceFuel pat new f1 s = pyReplaceFuel pat new f2 s := by
  intro f1
  induction f1 with
  | zero =>
    intro s f2 h1 _
    have hs : s = [] := by cases s <;> simp_all
    subst hs
    cases f2 <;> rfl
  | succ f ih =>
    intro s f2 h1 h2
    cases s with
    | nil => cases f2 <;> rfl
    | cons c rest =>
      cases f2 with
      | zero => simp at h2
      | succ f2n =>
        cases hd : dropPre pat (c :: rest) with
        | some rem =>
          have hlen := dropPre_some_length pat (c :: rest) rem hd
          have hplen : 1 ≤ pat.length := by cases pat <;> simp_all
          simp only [List.length_cons] at h1 h2 hlen
          have hr1 : rem.length ≤ f := by omega
          have hr2 : rem.length ≤ f2n := by omega
          simp only [pyReplaceFuel, hd]
          rw [ih rem f2n hr1 hr2]
        | none =>
          simp only [List.length_cons] at h1 h2
          have hr1 : rest.length ≤ f := by omega
          have hr2 : rest.length ≤ f2n := by omega
          simp only [pyReplaceFuel, hd]
          rw [ih rest f2n hr1 hr2]

/-- Replacement in the empty string yields the empty string (nonempty
pattern). -/
theorem pyReplace_nil (old new : PyStr) (hp : old ≠ []) :
    pyReplace [] old new = [] := by
  cases old with
  | nil => exact absurd rfl hp
  | cons o os => rfl

/-- Unfolding equation for `pyReplace` when the pattern matches at the
front: the pattern is consumed, `new` is emitted, and scanning continues
after it. -/
theorem pyReplace_cons_pos (old new : PyStr) (hp : old ≠ []) (c : Char) (r rem : PyStr)
    (h : dropPre old (c :: r) = some rem) :
    pyReplace (c :: r) old new = new ++ pyReplace rem old new := by
  cases old with
  | nil => exact absurd rfl hp
  | cons o os =>
    have hlen := dropPre_some_length (o :: os) (c :: r) rem h
    simp only [pyReplace, List.length_cons, pyReplaceFuel, h]
    have : rem.length ≤ r.length := by simp at hlen; omega
    rw [pyReplaceFuel_congr (o :: os) new (by simp) r.length rem rem.length this (le_refl _)]

/-- Unfolding equation for `pyReplace` when the pattern does not match at
the front: the first character is kept and scanning continues. -/
theorem pyReplace_cons_neg (old new : PyStr) (c : Char) (r : PyStr)
    (h : dropPre old (c :: r) = none) :
    pyReplace (c :: r) old new = c :: pyReplace r old new := by
  cases old with
  | nil => simp [dropPre] at h
  | cons o os => simp only [pyReplace, List.length_cons, pyReplaceFuel, h]

/-- If the pattern occurs nowhere in the string, replacement is the
identity. -/
theorem pyReplace_no_occ (old new s : PyStr) (h : pyIn old s = false) :
    pyReplace s old new = s := by
  induction s with
  | nil =>
    have : old ≠ [] := by
      intro he; subst he; simp [pyIn, List.isEmpty] at h
    exact pyReplace_nil old new this
  | cons c r ih =>
    simp only [pyIn, Bool.or_eq_false_iff] at h
    obtain ⟨h1, h2⟩ := h
    rw [pyReplace_cons_neg old new c r ((dropPre_none_iff old (c :: r)).2 h1)]
    rw [ih h2]

/-- A string never starts with the empty-string check failing: helper
computations for `pyIn` on the empty needle. -/
theorem pyIn_nil_needle (s : PyStr) : pyIn [] s = true := by
  cases s <;> simp [pyIn, pyStartsWith, List.isEmpty]

/-- Prefix relation is transitive. -/
theorem pyStartsWith_trans (p q t : PyStr) (h1 : pyStartsWith p q = true)
    (h2 : pyStartsWith q t = true) : pyStartsWith p t = true := by
  induction p generalizing q t with
  | nil => cases t <;> simp [pyStartsWith]
  | cons a as ih =>
    cases q with
    | nil => simp [pyStartsWith] at h1
    | cons b bs =>
      cases t with
      | nil => simp [pyStartsWith] at h2
      | cons c cs =>
        simp only [pyStartsWith, Bool.and_eq_true, beq_iff_eq] at h1 h2 ⊢
        exact ⟨h1.1.trans h2.1, ih bs cs h1.2 h2.2⟩

/-- If `p` is a prefix of `q`, any occurrence of `q` yields an occurrence
of `p`. -/
theorem pyIn_mono_prefix (p q s : PyStr) (hpq : pyStartsWith p q = true)
    (h : pyIn q s = true) : pyIn p s = true := by
  induction s with
  | nil =>
    simp [pyIn, List.isEmpty_iff] at h
    subst h
    cases p with
    | nil => simp [pyIn, List.isEmpty]
    | cons a as => simp [pyStartsWith] at hpq
  | cons c r ih =>
    simp only [pyIn, Bool.or_eq_true] at h ⊢
    cases h with
    | inl hsw => exact Or.inl (pyStartsWith_trans p q (c :: r) hpq hsw)
    | inr hr => exact Or.inr (ih hr)

/-- Replacement removes an occurrence of the pattern sitting at an
arbitrary position: if no occurrence starts before position `u.length`,
the scan emits `u` unchanged, replaces the occurrence there, and continues
in `v`. -/
theorem pyReplace_first_occ (old new : PyStr) (hp : old ≠ []) :
    ∀ u v : PyStr,
      (∀ i : Nat, i < u.length → pyStartsWith old ((u ++ old ++ v).drop i) = false) →
      pyReplace (u ++ old ++ v) old new = u ++ new ++ pyReplace v old new := by
  intro u
  induction u with
  | nil =>
    intro v _
    cases old with
    | nil => exact absurd rfl hp
    | cons o os =>
      have hd : dropPre (o :: os) ((o :: os) ++ v) = some v := dropPre_append (o :: os) v
      simp only [List.nil_append, List.cons_append] at hd ⊢
      rw [pyReplace_cons_pos (o :: os) new (by simp) o (os ++ v) v (by simpa using hd)]
  | cons c u' ih =>
    intro v h
    have h0 : pyStartsWith old (c :: (u' ++ old ++ v)) = false := by
      have := h 0 (by simp)
      simpa using this
    have hd : dropPre old (c :: (u' ++ old ++ v)) = none :=
      (dropPre_none_iff old _).2 h0
    have hstep : pyReplace ((c :: u') ++ old ++ v) old new
        = c :: pyReplace (u' ++ old ++ v) old new := by
      simpa using pyReplace_cons_neg old new c (u' ++ old ++ v) hd
    rw [hstep, ih v (fun i hi => by
      have := h (i + 1) (by simp; omega)
      simpa using this)]
    simp

/-!
Data model.  One parsed feed entry, holding exactly the fields `legacy.py`
reads.  Every field is optional: a missing field models a failed lookup on
the feedparser entry.  The external feed library distinguishes two failure
modes, which the script's `except KeyError` treats differently:

* subscript access (`entry["href"]`, `comment["thr_in-reply-to"]["href"]`,
  `value["published"]`, ...) raises `KeyError`;
* attribute access (`entry.link`, `entry.category`, `value.tags`,
  `comment.title`) goes through the library dictionary's attribute
  fallback, which converts a failed lookup into `AttributeError`.

`authorName` models `comment["author_detail"]["name"]` and `inReplyTo`
models `comment["thr_in-reply-to"]["href"]`, each flattened to a single
optional field (a missing value at either level of the original two-level
lookup raises `KeyError`).  Category tags are modelled by their `term`
strings, since the script reads only `x["term"]`.
-/

/-- Exceptions raised by field lookups, tagged with the failing key. -/
inductive PyErr where
  | keyError (k : String) : PyErr
  | attrError (k : String) : PyErr
deriving DecidableEq, Repr

/-- One parsed feed entry (see the module comment above for the field
conventions). -/
structure Entry where
  link : Option PyStr
  href : Option PyStr
  tags : Option (List PyStr)
  published : Option PyStr
  title : Option PyStr
  summary : Option PyStr
  authorName : Option PyStr
  inReplyTo : Option PyStr
deriving DecidableEq, Repr

/-- The feed library's `entry.category`: the `term` of the first category
tag; the lookup fails when the entry has no tags at all (and attribute
access then surfaces `AttributeError`). -/
def entryCategory (e : Entry) : Option PyStr :=
  match e.tags with
  | none => none
  | some ts => ts.head?

/-- A stored post: the entry plus the mutable comments list the script
installs with `entry["comments"] = []`. -/
structure Post where
  entry : Entry
  comments : List Entry
deriving DecidableEq, Repr

/-- The posts dictionary, keyed by post link.  Python dict semantics:
insertion order, updating an existing key overwrites in place. -/
abbrev PostsDict := List (PyStr × Post)

/-- Result of classifying one entry (`isPost` carries the entry's link,
which becomes the dictionary key). -/
inductive ClassifyResult where
  | discard : ClassifyResult
  | isComment : ClassifyResult
  | isPost (link : PyStr) : ClassifyResult
deriving DecidableEq, Repr

/-- The per-entry classification of `legacy.py` lines 60-79, in source
order: discard on the blogger config marker in `link`, discard on
"comments" in `entry["href"]`, discard on "#settings" in the category,
comment on "#comment" in the category, otherwise post. -/
def classifyEntry (e : Entry) : Except PyErr ClassifyResult :=
  match e.link with
  | none => Except.error (PyErr.attrError ("link"))
  | some link =>
    if pyIn (("tag:blogger.com").toList) link then Except.ok ClassifyResult.discard
    else match e.href with
    | none => Except.error (PyErr.keyError ("href"))
    | some href =>
      if pyIn (("comments").toList) href then Except.ok ClassifyResult.discard
      else match entryCategory e with
      | none => Except.error (PyErr.attrError ("category"))
      | some cat =>
        if pyIn (("#settings").toList) cat then Except.ok ClassifyResult.discard
        else if pyIn (("#comment").toList) cat then Except.ok ClassifyResult.isComment
        else Except.ok (ClassifyResult.isPost link)

/-- State built by the classification loop: the posts dictionary, the
comments list, and the keys of entries skipped after a caught
`KeyError` (each printed as an error and skipped). -/
structure CState where
  posts : PostsDict
  comments : List Entry
  skipped : List String
deriving DecidableEq, Repr

/-- Python dict insertion: overwrite in place if the key exists, else
append at the end. -/
def dictInsert (d : PostsDict) (k : PyStr) (v : Post) : PostsDict :=
  if d.any (fun kv => kv.1 == k) then
    d.map (fun kv => if kv.1 == k then (k, v) else kv)
  else d ++ [(k, v)]

/-- One iteration of the classification loop.  A caught `KeyError` logs
and skips the entry; an `AttributeError` escapes the `except KeyError`
handler and aborts the whole run. -/
def classifyStep (st : CState) (e : Entry) : Except PyErr CState :=
  match classifyEntry e with
  | Except.error (PyErr.keyError k) =>
      Except.ok { st with skipped := st.skipped ++ [k] }
  | Except.error (PyErr.attrError k) => Except.error (PyErr.attrError k)
  | Except.ok ClassifyResult.discard => Except.ok st
  | Except.ok ClassifyResult.isComment =>
      Except.ok { st with comments := st.comments ++ [e] }
  | Except.ok (ClassifyResult.isPost l) =>
      Except.ok { st with posts := dictInsert st.posts l { entry := e, comments := [] } }

/-- The classification loop over all entries. -/
def classifyFold : CState → List Entry → Except PyErr CState
  | st, [] => Except.ok st
  | st, e :: rest =>
    match classifyStep st e with
    | Except.error err => Except.error err
    | Except.ok st2 => classifyFold st2 rest

/-- Classification of a whole feed, starting from empty state. -/
def classifyEntries (entries : List Entry) : Except PyErr CState :=
  classifyFold { posts := [], comments := [], skipped := [] } entries

/-- Append a comment to the post stored under key `k`
(`posts[post_link]["comments"].append(comment)`). -/
def attachComment (d : PostsDict) (k : PyStr) (c : Entry) : PostsDict :=
  d.map (fun kv =>
    if kv.1 == k then (kv.1, { kv.2 with comments := kv.2.comments ++ [c] }) else kv)

/-- Whether the posts dictionary holds a post for this comment's reply
target (`post_link in posts`); `false` when the reply target is missing. -/
def hasPostFor (d : PostsDict) (c : Entry) : Bool :=
  match c.inReplyTo with
  | none => false
  | some h => d.any (fun kv => kv.1 == h)

/-- The comment correlation loop of `legacy.py` lines 82-88.  Each comment's
`comment["thr_in-reply-to"]["href"]` is looked up (a missing value raises an
uncaught `KeyError`: this loop has no exception handler); a matching post
gets the comment appended, otherwise a warning naming `comment.title` is
printed (an uncaught `AttributeError` if the title is missing) and the
comment is dropped.  Returns the updated dictionary and the orphaned
comments, in feed order. -/
def correlateAll (d : PostsDict) : List Entry → Except PyErr (PostsDict × List Entry)
  | [] => Except.ok (d, [])
  | c :: rest =>
    match c.inReplyTo with
    | none => Except.error (PyErr.keyError ("thr_in-reply-to"))
    | some h =>
      if d.any (fun kv => kv.1 == h) then
        match correlateAll (attachComment d h c) rest with
        | Except.error e => Except.error e
        | Except.ok (d2, orphans) => Except.ok (d2, orphans)
      else
        match c.title with
        | none => Except.error (PyErr.attrError ("title"))
        | some _ =>
          match correlateAll d rest with
          | Except.error e => Except.error e
          | Except.ok (d2, orphans) => Except.ok (d2, c :: orphans)

/-- Step 1 of filename derivation (`key.replace(".html", ".md")`): every
occurrence of ".html" in the post link is replaced by ".md". -/
def step1Rename (key : PyStr) : PyStr :=
  pyReplace key ((".html").toList) ((".md").toList)

/-- The https-upgraded form of the feed's declared root
(`data["feed"]["link"].replace("http", "https")`): every occurrence of
"http" is replaced by "https". -/
def httpsUpgrade (feedLink : PyStr) : PyStr :=
  pyReplace feedLink (("http").toList) (("https").toList)

/-- Root stripping (`legacy.py` lines 99-101): remove every occurrence of
the feed-declared root, then every occurrence of its https-upgraded form,
as substrings anywhere in the string. -/
def stripRoots (s feedLink : PyStr) : PyStr :=
  pyReplace (pyReplace s feedLink []) (httpsUpgrade feedLink) []

/-- YAML-representable values appearing in the front matter. -/
inductive YVal where
  | s (v : PyStr) : YVal
  | b (v : Bool) : YVal
  | n (v : Nat) : YVal
  | l (v : List PyStr) : YVal
deriving DecidableEq, Repr

/-- The front-matter mapping exactly as the script builds it (`legacy.py`
lines 119-127), in Python dict insertion order. -/
def frontMatterOf (published slug : PyStr) (tags : List PyStr) (title : PyStr) :
    List (PyStr × YVal) :=
  [(("date").toList, YVal.s published),
   (("published").toList, YVal.b true),
   (("slug").toList, YVal.s slug),
   (("tags").toList, YVal.l tags),
   (("time_to_read").toList, YVal.n 5),
   (("title").toList, YVal.s title),
   (("description").toList, YVal.s [])]

/-- Insert one key-value pair into a key-sorted front-matter list. -/
def fmInsert (kv : PyStr × YVal) : List (PyStr × YVal) → List (PyStr × YVal)
  | [] => [kv]
  | h :: t => if pyStrLt kv.1 h.1 then kv :: h :: t else h :: fmInsert kv t

/-- Insertion sort of a front-matter mapping by key, in the code-point
order `sorted()` uses on string keys. -/
def fmSort : List (PyStr × YVal) → List (PyStr × YVal)
  | [] => []
  | h :: t => fmInsert h (fmSort t)

/-- Scalar/sequence text for a YAML value.  Modelled from the external
library (PyYAML); the exact scalar quoting rules are abstracted, as no
claim depends on them. -/
def yvalText : YVal → PyStr
  | YVal.s v => v
  | YVal.b v => if v then ("true").toList else ("false").toList
  | YVal.n v => (Nat.repr v).toList
  | YVal.l v => ("[").toList ++ (List.intersperse ((", ").toList) v).flatten ++ ("]").toList

/-- One serialized front-matter line. -/
def yamlLine (kv : PyStr × YVal) : PyStr :=
  kv.1 ++ ((": ").toList) ++ yvalText kv.2 ++ (("\n").toList)

/-- Modelled from the external library: PyYAML's `yaml.dump` serializes a
mapping with its keys in sorted order (`sort_keys=True` is the default), one
`key: value` line per entry for this flat mapping. -/
def yamlDump (fm : List (PyStr × YVal)) : PyStr :=
  ((fmSort fm).map yamlLine).flatten

/-- The key sequence of the serialized front-matter block. -/
def yamlKeys (fm : List (PyStr × YVal)) : List PyStr :=
  (fmSort fm).map Prod.fst

/-- The sentinel category term the script filters out of the tags
(`legacy.py` line 115). -/
def kindPostMarker : PyStr :=
  ("https://schemas.google.com/blogger/2008/kind#post").toList

/-- The optional backlink block (`legacy.py` line 136). -/
def originalNote (key : PyStr) : PyStr :=
  ("*This was originally posted on blogger [here](").toList ++ key ++ ((")*.\n\n").toList)

/-- Per-comment data extracted while rendering: author name, published
timestamp, body HTML (`comment['author_detail']['name']`,
`comment['published']`, `comment["summary"]`).  These subscript lookups run
inside the unguarded write loop, so a missing field raises an uncaught
`KeyError`. -/
def extractComments : List Entry → Except PyErr (List (PyStr × PyStr × PyStr))
  | [] => Except.ok []
  | c :: rest =>
    match c.authorName with
    | none => Except.error (PyErr.keyError ("author_detail"))
    | some n =>
      match c.published with
      | none => Except.error (PyErr.keyError ("published"))
      | some pb =>
        match c.summary with
        | none => Except.error (PyErr.keyError ("summary"))
        | some s =>
          match extractComments rest with
          | Except.error e => Except.error e
          | Except.ok ds => Except.ok ((n, pb, s) :: ds)

/-- The text written for one comment (`legacy.py` lines 147-152): a bold
header with the author and the published timestamp truncated to its first
10 characters, then the raw comment body, separated by blank lines. -/
def oneCommentText (cd : PyStr × PyStr × PyStr) : PyStr :=
  ("**").toList ++ cd.1 ++ ((" said on ").toList) ++ cd.2.1.take 10
    ++ (("**\n\n").toList) ++ cd.2.2 ++ (("\n\n").toList)

/-- The comments block (`legacy.py` lines 141-152): present only when the
post has at least one attached comment (`if value["comments"]:`; extraction
preserves the length of the comments list), a separator and a count header,
then each comment's text in attachment order. -/
def commentsSection (key : PyStr) (cdata : List (PyStr × PyStr × PyStr)) : PyStr :=
  if cdata.isEmpty then [] else
    ("\n\n---\n\n## ").toList ++ (Nat.repr cdata.length).toList
      ++ ((" comments captured from [original post](").toList) ++ key
      ++ ((") on Blogger\n\n").toList)
      ++ (cdata.map oneCommentText).flatten

/-- Everything the script writes for one post before the comments block:
front-matter fences, serialized front matter, the optional backlink, then
the raw post body. -/
def bodyWithoutComments (fm : List (PyStr × YVal)) (showOriginal : Bool)
    (key summary : PyStr) : PyStr :=
  ("---\n").toList ++ yamlDump fm ++ (("---\n\n").toList)
    ++ (if showOriginal then originalNote key else []) ++ summary

/-- The final per-post artifact: derived filename, the front-matter mapping
(in build order), and the full text written to the file. -/
structure OutputDoc where
  filename : PyStr
  frontMatter : List (PyStr × YVal)
  body : PyStr
deriving DecidableEq, Repr

/-- Assembly of one output document from the extracted fields
(`legacy.py` lines 109-152): flatten path separators, filter the kind
sentinel out of the tags and append the user tag, build the front matter
(slug = filename with every ".md" removed), and concatenate the document
text. -/
def mkDoc (tg : PyStr) (showOriginal : Bool) (key fn2 : PyStr)
    (terms : List PyStr) (pub ttl summ : PyStr)
    (cdata : List (PyStr × PyStr × PyStr)) : OutputDoc :=
  let filename := pyReplace fn2 (("/").toList) (("-").toList)
  let tags := (terms.filter (fun x => x != kindPostMarker)) ++ [tg]
  let fm := frontMatterOf pub (pyReplace filename ((".md").toList) []) tags ttl
  { filename := filename
    frontMatter := fm
    body := bodyWithoutComments fm showOriginal key summ ++ commentsSection key cdata }

/-- Processing of one post in the write loop (`legacy.py` lines 96-152):
derive the candidate filename, skip (producing nothing) when it is
whitespace-only or starts with "p-", then extract the fields and build the
document.  Field lookups in this loop have no exception handler, so a
missing field aborts the run: `value.tags` by `AttributeError`, the
subscript lookups by `KeyError`. -/
def processPost (feedLink tg : PyStr) (showOriginal : Bool) (key : PyStr)
    (p : Post) : Except PyErr (Option OutputDoc) :=
  if (stripRoots (step1Rename key) feedLink).all pyIsSpace then Except.ok none
  else if pyStartsWith (("p-").toList) (stripRoots (step1Rename key) feedLink) then Except.ok none
  else match p.entry.tags with
  | none => Except.error (PyErr.attrError ("tags"))
  | some terms =>
    match p.entry.published with
    | none => Except.error (PyErr.keyError ("published"))
    | some pub =>
      match p.entry.title with
      | none => Except.error (PyErr.keyError ("title"))
      | some ttl =>
        match p.entry.summary with
        | none => Except.error (PyErr.keyError ("summary"))
        | some summ =>
          match extractComments p.comments with
          | Except.error e => Except.error e
          | Except.ok cdata =>
            Except.ok (some (mkDoc tg showOriginal key
              (stripRoots (step1Rename key) feedLink) terms pub ttl summ cdata))

/-- The write loop over the posts dictionary, in insertion order; the
first uncaught exception aborts the run. -/
def renderAll (feedLink tg : PyStr) (showOriginal : Bool) :
    PostsDict → Except PyErr (List OutputDoc)
  | [] => Except.ok []
  | (k, p) :: rest =>
    match processPost feedLink tg showOriginal k p with
    | Except.error e => Except.error e
    | Except.ok none => renderAll feedLink tg showOriginal rest
    | Except.ok (some d) =>
      match renderAll feedLink tg showOriginal rest with
      | Except.error e => Except.error e
      | Except.ok ds => Except.ok (d :: ds)

/-- A parsed feed: the declared site root (`data["feed"]["link"]`) and the
entries in document order. -/
structure Feed where
  feedLink : PyStr
  entries : List Entry
deriving DecidableEq, Repr

/-- Outcome of a completed run: the documents written, the orphaned
comments (each reported by a warning), and the keys whose lookup failures
were caught and logged during classification. -/
structure RunResult where
  docs : List OutputDoc
  orphans : List Entry
  skipped : List String
deriving DecidableEq, Repr

/-- The whole pipeline of `main`: classify, correlate, render.  Any
uncaught exception aborts the remaining work. -/
def runPipeline (feed : Feed) (tg : PyStr) (showOriginal : Bool) :
    Except PyErr RunResult :=
  match classifyEntries feed.entries with
  | Except.error e => Except.error e
  | Except.ok st =>
    match correlateAll st.posts st.comments with
    | Except.error e => Except.error e
    | Except.ok (d2, orphans) =>
      match renderAll feed.feedLink tg showOriginal d2 with
      | Except.error e => Except.error e
      | Except.ok docs => Except.ok { docs := docs, orphans := orphans, skipped := st.skipped }

/-!
Helper lemmas shared by the filename-derivation claims.
-/

/-- Every string starts with itself followed by anything. -/
theorem pyStartsWith_append_self (p t : PyStr) : pyStartsWith p (p ++ t) = true := by
  induction p with
  | nil => simp [pyStartsWith]
  | cons a as ih => simp [pyStartsWith, ih]

/-- Replacement with a nonempty replacement text maps nonempty strings to
nonempty strings. -/
theorem pyReplace_ne_nil (s old new : PyStr) (hs : s ≠ []) (hnew : new ≠ []) :
    pyReplace s old new ≠ [] := by
  cases s with
  | nil => exact absurd rfl hs
  | cons c r =>
    cases old with
    | nil => simp [pyReplace]
    | cons o os =>
      cases hd : dropPre (o :: os) (c :: r) with
      | some rem =>
        rw [pyReplace_cons_pos (o :: os) new (by simp) c r rem hd]
        simp [hnew]
      | none =>
        rw [pyReplace_cons_neg (o :: os) new c r hd]
        simp

/-- The https-upgraded root of a nonempty declared root is nonempty. -/
theorem httpsUpgrade_ne_nil (root : PyStr) (hr : root ≠ []) : httpsUpgrade root ≠ [] :=
  pyReplace_ne_nil root (("http").toList) (("https").toList) hr (by decide)

/-- Spec-side rendition of the claim "only a trailing `.html` is rewritten":
rewrite the suffix when present, leave everything else unchanged. -/
def pyEndsWith (pat s : PyStr) : Bool :=
  pyStartsWith pat.reverse s.reverse

/-- Rename following the claim's words for C9: rewrite only a trailing
".html" to ".md", leaving every other character of the link unchanged. -/
def specStep1TrailingOnly (s : PyStr) : PyStr :=
  if pyEndsWith ((".html").toList) s then s.take (s.length - 5) ++ ((".md").toList) else s

/-- C9 counterexample: on the link "a.htmlb.html" the code rewrites both
occurrences of ".html" (producing "a.mdb.md"), while the claim's
trailing-only rewrite would produce "a.htmlb.md"; the two differ. -/
theorem step1Rename_not_trailing_only :
    step1Rename (("a.htmlb.html").toList) = ("a.mdb.md").toList
    ∧ specStep1TrailingOnly (("a.htmlb.html").toList) = ("a.htmlb.md").toList
    ∧ ("a.mdb.md").toList ≠ ("a.htmlb.md").toList := by
  refine ⟨by decide, by decide, by decide⟩

/-- C9 (amended): step 1 of filename derivation replaces every
non-overlapping occurrence of ".html" in the post link with ".md" — also
occurrences that are not a trailing suffix.  An occurrence at an arbitrary
position (nothing matching earlier) is rewritten, the characters before it
are kept unchanged, and scanning continues after it; a link without any
occurrence is unchanged. -/
theorem step1Rename_every_occurrence (u v w : PyStr)
    (h : ∀ i : Nat, i < u.length →
      pyStartsWith ((".html").toList) ((u ++ ((".html").toList) ++ v).drop i) = false)
    (hw : pyIn ((".html").toList) w = false) :
    step1Rename (u ++ ((".html").toList) ++ v) = u ++ ((".md").toList) ++ step1Rename v
    ∧ step1Rename w = w := by
  constructor
  · exact pyReplace_first_occ ((".html").toList) ((".md").toList) (by decide) u v h
  · exact pyReplace_no_occ ((".html").toList) ((".md").toList) w hw

/-- C9 witness: the amended theorem applied to the link "a.htmlb.html",
split as "a" ++ ".html" ++ "b.html", exhibiting a non-trailing occurrence
being rewritten. -/
theorem step1Rename_every_occurrence_witness :
    step1Rename ((("a").toList) ++ ((".html").toList) ++ (("b.html").toList))
      = (("a").toList) ++ ((".md").toList) ++ step1Rename (("b.html").toList)
    ∧ step1Rename (("nohtml.md").toList) = ("nohtml.md").toList :=
  step1Rename_every_occurrence (("a").toList) (("b.html").toList) (("nohtml.md").toList)
    (by decide) (by decide)

/-- The https upgrade of a root that already starts with "https" begins
"httpss": the leading "http" of "https" is itself upgraded. -/
theorem httpsUpgrade_https_head (rest : PyStr) :
    httpsUpgrade ((("https").toList) ++ rest)
      = (("httpss").toList) ++ pyReplace rest (("http").toList) (("https").toList) := by
  show pyReplace ('h' :: 't' :: 't' :: 'p' :: 's' :: rest) (("http").toList) (("https").toList) = _
  rw [pyReplace_cons_pos (("http").toList) (("https").toList) (by decide)
    'h' ('t' :: 't' :: 'p' :: 's' :: rest) ('s' :: rest) rfl]
  rw [pyReplace_cons_neg (("http").toList) (("https").toList) 's' rest rfl]
  rfl

/-- C10: the https-upgraded variant is computed by replacing every
occurrence of "http" in the feed-declared root with "https"; for a root
already beginning with "https" the variant begins with "httpss", so
whenever that variant occurs nowhere in the root-stripped string (as for
ordinary post links), the second replacement does nothing and only the
literal declared root is stripped. -/
theorem httpsUpgrade_already_https (rest s : PyStr)
    (h : pyIn (("httpss").toList)
      (pyReplace s ((("https").toList) ++ rest) []) = false) :
    pyStartsWith (("httpss").toList) (httpsUpgrade ((("https").toList) ++ rest)) = true
    ∧ stripRoots s ((("https").toList) ++ rest)
        = pyReplace s ((("https").toList) ++ rest) [] := by
  have ha := httpsUpgrade_https_head rest
  constructor
  · rw [ha]
    exact pyStartsWith_append_self (("httpss").toList) _
  · unfold stripRoots
    apply pyReplace_no_occ
    cases hv : pyIn (httpsUpgrade ((("https").toList) ++ rest))
        (pyReplace s ((("https").toList) ++ rest) []) with
    | false => rfl
    | true =>
      have hmono := pyIn_mono_prefix (("httpss").toList)
        (httpsUpgrade ((("https").toList) ++ rest))
        (pyReplace s ((("https").toList) ++ rest) [])
        (by rw [ha]; exact pyStartsWith_append_self (("httpss").toList) _) hv
      rw [h] at hmono
      cases hmono

/-- C10 witness: for the already-https root "https://e/" the upgraded
variant starts with "httpss", and stripping the link "https://e/x.md"
removes only the literal root. -/
theorem httpsUpgrade_already_https_witness :
    pyStartsWith (("httpss").toList) (httpsUpgrade ((("https").toList) ++ (("://e/").toList))) = true
    ∧ stripRoots (("https://e/x.md").toList) ((("https").toList) ++ (("://e/").toList))
        = pyReplace (("https://e/x.md").toList) ((("https").toList) ++ (("://e/").toList)) [] :=
  httpsUpgrade_already_https (("://e/").toList) (("https://e/x.md").toList) (by decide)

/-- C6: the root-stripping step removes occurrences of the feed-declared
root, and of its https-upgraded form, as substrings anywhere in the
string — not only when they appear as a true prefix.  First conjunct: an
occurrence of the declared root at an arbitrary position `u.length` is
removed (and scanning continues in `v`, removing later occurrences too).
Second conjunct: likewise for an occurrence of the https-upgraded form. -/
theorem stripRoots_substring_removal (u v u2 v2 root : PyStr) (hr : root ≠ [])
    (h1 : ∀ i : Nat, i < u.length →
      pyStartsWith root ((u ++ root ++ v).drop i) = false)
    (h2 : pyIn (httpsUpgrade root) (u ++ pyReplace v root []) = false)
    (h3 : pyIn root (u2 ++ httpsUpgrade root ++ v2) = false)
    (h4 : ∀ i : Nat, i < u2.length →
      pyStartsWith (httpsUpgrade root) ((u2 ++ httpsUpgrade root ++ v2).drop i) = false) :
    stripRoots (u ++ root ++ v) root = u ++ pyReplace v root []
    ∧ stripRoots (u2 ++ httpsUpgrade root ++ v2) root
        = u2 ++ pyReplace v2 (httpsUpgrade root) [] := by
  constructor
  · unfold stripRoots
    rw [pyReplace_first_occ root [] hr u v h1]
    simp only [List.append_nil, List.append_assoc] at h2 ⊢
    exact pyReplace_no_occ _ _ _ h2
  · unfold stripRoots
    rw [pyReplace_no_occ root [] _ h3]
    rw [pyReplace_first_occ (httpsUpgrade root) [] (httpsUpgrade_ne_nil root hr) u2 v2 h4]
    simp

/-- C6 witness: for root "http://e/", a mid-string occurrence in
"X" ++ root ++ "a.md" is removed, and a mid-string occurrence of the
https-upgraded variant in "Y" ++ variant ++ "b.md" is removed. -/
theorem stripRoots_substring_removal_witness :
    stripRoots ((("X").toList) ++ (("http://e/").toList) ++ (("a.md").toList)) (("http://e/").toList)
      = (("X").toList) ++ pyReplace (("a.md").toList) (("http://e/").toList) []
    ∧ stripRoots ((("Y").toList) ++ httpsUpgrade (("http://e/").toList) ++ (("b.md").toList)) (("http://e/").toList)
      = (("Y").toList) ++ pyReplace (("b.md").toList) (httpsUpgrade (("http://e/").toList)) [] :=
  stripRoots_substring_removal (("X").toList) (("a.md").toList) (("Y").toList) (("b.md").toList)
    (("http://e/").toList) (by decide) (by decide) (by decide) (by decide) (by decide)

/-- C7: a post whose derived name — after the ".html" → ".md" rewrite and
root stripping, before slash flattening — is whitespace-only or starts
with "p-" is skipped entirely: the write loop produces no output document
for it (and touches none of its fields). -/
theorem blank_or_page_posts_skipped (feedLink tg : PyStr) (so : Bool) (key : PyStr) (p : Post)
    (h : (stripRoots (step1Rename key) feedLink).all pyIsSpace = true
       ∨ pyStartsWith (("p-").toList) (stripRoots (step1Rename key) feedLink) = true) :
    processPost feedLink tg so key p = Except.ok none := by
  unfold processPost
  rcases h with h | h
  · simp [h]
  · by_cases hb : (stripRoots (step1Rename key) feedLink).all pyIsSpace
    · simp [hb]
    · have h' : pyStartsWith ['p', '-'] (stripRoots (step1Rename key) feedLink) = true := h
      simp [hb, h']

/-- C7 witness: the post link "http://e/p-about.html" under root
"http://e/" derives the name "p-about.md", so no document is produced. -/
theorem blank_or_page_posts_skipped_witness :
    processPost (("http://e/").toList) (("g").toList) true (("http://e/p-about.html").toList)
      { entry := { link := none, href := none, tags := none, published := none,
                   title := none, summary := none, authorName := none, inReplyTo := none },
        comments := [] } = Except.ok none :=
  blank_or_page_posts_skipped (("http://e/").toList) (("g").toList) true
    (("http://e/p-about.html").toList) _ (Or.inr (by decide))

/-!
Claim C2: the classification rule table.
-/

/-- Classification outcomes as the specification names them. -/
inductive SpecClass where
  | discard : SpecClass
  | comment : SpecClass
  | post : SpecClass
deriving DecidableEq, Repr

/-- Forget the link carried by a post classification. -/
def toSpecClass : ClassifyResult → SpecClass
  | ClassifyResult.discard => SpecClass.discard
  | ClassifyResult.isComment => SpecClass.comment
  | ClassifyResult.isPost _ => SpecClass.post

/-- Classifier following the claim's words: rules in order, first match
wins, where rules 3 and 4 test whether ANY category term contains the
probe substring. -/
def specClassifyAny (link href : PyStr) (terms : List PyStr) : SpecClass :=
  if pyIn (("tag:blogger.com").toList) link then SpecClass.discard
  else if pyIn (("comments").toList) href then SpecClass.discard
  else if terms.any (fun t => pyIn (("#settings").toList) t) then SpecClass.discard
  else if terms.any (fun t => pyIn (("#comment").toList) t) then SpecClass.comment
  else SpecClass.post

/-- Classifier following the amended claim: the same ordered rules, but
rules 3 and 4 test only the FIRST category term (the feed library's
`category` field). -/
def specClassifyFirst (link href firstTerm : PyStr) : SpecClass :=
  if pyIn (("tag:blogger.com").toList) link then SpecClass.discard
  else if pyIn (("comments").toList) href then SpecClass.discard
  else if pyIn (("#settings").toList) firstTerm then SpecClass.discard
  else if pyIn (("#comment").toList) firstTerm then SpecClass.comment
  else SpecClass.post

/-- An entry whose second category term contains "#settings" while the
first does not. -/
def c2entry : Entry where
  link := some (("L").toList)
  href := some (("h").toList)
  tags := some [("x").toList, ("#settings").toList]
  published := none
  title := none
  summary := none
  authorName := none
  inReplyTo := none

/-- C2 counterexample: the code classifies via the entry's `category`
field, which is only the first category term.  On an entry whose second
category term contains "#settings", the claim's any-term rule discards,
but the code classifies it as a post. -/
theorem classify_any_term_counterexample :
    (classifyEntry c2entry).map toSpecClass = Except.ok SpecClass.post
    ∧ specClassifyAny (("L").toList) (("h").toList) [("x").toList, ("#settings").toList]
        = SpecClass.discard
    ∧ SpecClass.post ≠ SpecClass.discard := by
  refine ⟨rfl, by decide, by decide⟩

/-- C2 (amended): for every entry whose link, alternate reference field
and category terms are present (with at least one term), the classifier
applies the five rules in order with first match winning, where the
category rules test the FIRST category term: discard on the
"tag:blogger.com" config marker in the link; else discard on "comments" in
the alternate reference field; else discard if the first category term
contains "#settings"; else comment if it contains "#comment"; else post. -/
theorem classifyEntry_rule_table (e : Entry) (link href t : PyStr) (ts : List PyStr)
    (hl : e.link = some link) (hh : e.href = some href) (ht : e.tags = some (t :: ts)) :
    (classifyEntry e).map toSpecClass = Except.ok (specClassifyFirst link href t) := by
  unfold classifyEntry specClassifyFirst entryCategory
  rw [hl, hh, ht]
  simp only [List.head?]
  split_ifs <;> rfl

/-- A concrete comment entry whose first category term contains
"#comment". -/
def c2commentEntry : Entry where
  link := some (("L2").toList)
  href := some (("h").toList)
  tags := some [("k#comment").toList]
  published := none
  title := none
  summary := none
  authorName := none
  inReplyTo := none

/-- C2 witness: the rule table applied to a concrete comment entry whose
first category term contains "#comment". -/
theorem classifyEntry_rule_table_witness :
    (classifyEntry c2commentEntry).map toSpecClass
      = Except.ok (specClassifyFirst (("L2").toList) (("h").toList) (("k#comment").toList)) :=
  classifyEntry_rule_table c2commentEntry (("L2").toList) (("h").toList) (("k#comment").toList) [] rfl rfl rfl

/-!
Shared inversion of a successful post rendering.
-/

/-- Inversion of `processPost`: a produced document is `mkDoc` applied to
the post's extracted fields, which are all present. -/
theorem processPost_inv (feedLink tg : PyStr) (so : Bool) (key : PyStr) (p : Post)
    (d : OutputDoc) (h : processPost feedLink tg so key p = Except.ok (some d)) :
    ∃ terms pub ttl summ cdata,
      p.entry.tags = some terms ∧ p.entry.published = some pub ∧
      p.entry.title = some ttl ∧ p.entry.summary = some summ ∧
      extractComments p.comments = Except.ok cdata ∧
      d = mkDoc tg so key (stripRoots (step1Rename key) feedLink) terms pub ttl summ cdata := by
  unfold processPost at h
  repeat' split at h
  all_goals
    first
      | (simp only [Except.ok.injEq, Option.some.injEq] at h
         exact ⟨_, _, _, _, _, by assumption, by assumption, by assumption, by assumption,
           by assumption, h.symm⟩)
      | simp at h

/-- Extraction preserves the number of comments. -/
theorem extractComments_length (cs : List Entry) (ds : List (PyStr × PyStr × PyStr))
    (h : extractComments cs = Except.ok ds) : ds.length = cs.length := by
  induction cs generalizing ds with
  | nil => simp [extractComments] at h; simp [h.symm]
  | cons c rest ih =>
    unfold extractComments at h
    split at h
    · simp at h
    split at h
    · simp at h
    split at h
    · simp at h
    split at h
    · simp at h
    next ds2 hds2 =>
      simp only [Except.ok.injEq] at h
      subst h
      simp [ih ds2 hds2]

/-!
Claims C3, C5, C8: front matter and document rendering.
-/

/-- Lookup of a key in the front-matter mapping. -/
def fmGet : List (PyStr × YVal) → PyStr → Option YVal
  | [], _ => none
  | kv :: rest, k => if kv.1 == k then some kv.2 else fmGet rest k

/-- A concrete well-formed post entry used to exercise the renderer. -/
def samplePostEntry : Entry where
  link := some (("http://e/a.html").toList)
  href := some (("h").toList)
  tags := some [kindPostMarker, ("travel").toList]
  published := some (("2010-05-06T01:02:03Z").toList)
  title := some (("T").toList)
  summary := some (("S").toList)
  authorName := none
  inReplyTo := none

/-- The sample post with no comments. -/
def samplePost : Post where
  entry := samplePostEntry
  comments := []

/-- The document the renderer produces for the sample post. -/
def sampleDoc : OutputDoc :=
  match processPost (("http://e/").toList) (("legacy-blogger").toList) false
      (("http://e/a.html").toList) samplePost with
  | Except.ok (some d) => d
  | _ => { filename := [], frontMatter := [], body := [] }

/-- C3 (amended): the serialized front-matter block lists its keys in
sorted (alphabetical) order — date, description, published, slug, tags,
time_to_read, title — because the YAML serializer sorts mapping keys by
default; the description key is second, not last. -/
theorem frontmatter_keys_sorted (feedLink tg : PyStr) (so : Bool) (key : PyStr) (p : Post)
    (d : OutputDoc) (h : processPost feedLink tg so key p = Except.ok (some d)) :
    yamlKeys d.frontMatter
      = [("date").toList, ("description").toList, ("published").toList, ("slug").toList,
         ("tags").toList, ("time_to_read").toList, ("title").toList] := by
  obtain ⟨terms, pub, ttl, summ, cdata, _, _, _, _, _, hd⟩ :=
    processPost_inv feedLink tg so key p d h
  subst hd
  rfl

/-- C3 witness: the sorted key order on the concrete sample post. -/
theorem frontmatter_keys_sorted_witness :
    processPost (("http://e/").toList) (("legacy-blogger").toList) false
      (("http://e/a.html").toList) samplePost = Except.ok (some sampleDoc)
    ∧ yamlKeys sampleDoc.frontMatter
      = [("date").toList, ("description").toList, ("published").toList, ("slug").toList,
         ("tags").toList, ("time_to_read").toList, ("title").toList] :=
  ⟨rfl, frontmatter_keys_sorted (("http://e/").toList) (("legacy-blogger").toList) false
    (("http://e/a.html").toList) samplePost sampleDoc rfl⟩

/-- C3 counterexample: on the sample post the serialized key sequence is
the alphabetical one, which differs from the claimed order
date, published, slug, tags, time_to_read, title, description
(description comes second, not last). -/
theorem frontmatter_key_order_counterexample :
    processPost (("http://e/").toList) (("legacy-blogger").toList) false
      (("http://e/a.html").toList) samplePost = Except.ok (some sampleDoc)
    ∧ yamlKeys sampleDoc.frontMatter
      = [("date").toList, ("description").toList, ("published").toList, ("slug").toList,
         ("tags").toList, ("time_to_read").toList, ("title").toList]
    ∧ yamlKeys sampleDoc.frontMatter
      ≠ [("date").toList, ("published").toList, ("slug").toList, ("tags").toList,
         ("time_to_read").toList, ("title").toList, ("description").toList] := by
  refine ⟨rfl, by decide, by decide⟩

/-- C5: the front-matter tags sequence is the post's category terms in
source order with the kind-post sentinel filtered out and the user tag
appended at the end; no deduplication is performed. -/
theorem frontmatter_tags_assembled (feedLink tg : PyStr) (so : Bool) (key : PyStr) (p : Post)
    (d : OutputDoc) (terms : List PyStr)
    (h : processPost feedLink tg so key p = Except.ok (some d))
    (ht : p.entry.tags = some terms) :
    fmGet d.frontMatter (("tags").toList)
      = some (YVal.l ((terms.filter (fun x => x != kindPostMarker)) ++ [tg])) := by
  obtain ⟨terms2, pub, ttl, summ, cdata, ht2, _, _, _, _, hd⟩ :=
    processPost_inv feedLink tg so key p d h
  rw [ht] at ht2
  injection ht2 with ht3
  subst ht3
  subst hd
  rfl

/-- C5 witness: for category terms [kind-post sentinel, "travel"] and user
tag "legacy-blogger", the front-matter tags are exactly
["travel", "legacy-blogger"]. -/
theorem frontmatter_tags_assembled_witness :
    processPost (("http://e/").toList) (("legacy-blogger").toList) false
      (("http://e/a.html").toList) samplePost = Except.ok (some sampleDoc)
    ∧ samplePost.entry.tags = some [kindPostMarker, ("travel").toList]
    ∧ fmGet sampleDoc.frontMatter (("tags").toList)
      = some (YVal.l [("travel").toList, ("legacy-blogger").toList]) :=
  ⟨rfl, rfl, frontmatter_tags_assembled (("http://e/").toList) (("legacy-blogger").toList) false
    (("http://e/a.html").toList) samplePost sampleDoc [kindPostMarker, ("travel").toList] rfl rfl⟩

/-- The comments block entry for one comment, following the claim's words:
a header with the author and the published timestamp truncated to its
first 10 characters, then the comment's raw body HTML, separated by blank
lines. -/
def specCommentText (author published body : PyStr) : PyStr :=
  ("**").toList ++ author ++ ((" said on ").toList) ++ published.take 10
    ++ (("**\n\n").toList) ++ body ++ (("\n\n").toList)

/-- C8: the rendered document carries a comments block exactly when the
post has at least one attached comment; when present, it consists of the
count header followed by, for each attached comment in attachment order,
the header with the author and the timestamp truncated to 10 characters
and then the raw comment body, separated by blank lines. -/
theorem comments_block_rendered (feedLink tg : PyStr) (so : Bool) (key : PyStr) (p : Post)
    (d : OutputDoc) (cdata : List (PyStr × PyStr × PyStr))
    (h : processPost feedLink tg so key p = Except.ok (some d))
    (hc : extractComments p.comments = Except.ok cdata) :
    d.body = bodyWithoutComments d.frontMatter so key (p.entry.summary.getD [])
      ++ (if p.comments.isEmpty then []
          else ("\n\n---\n\n## ").toList ++ (Nat.repr p.comments.length).toList
            ++ ((" comments captured from [original post](").toList) ++ key
            ++ ((") on Blogger\n\n").toList)
            ++ (cdata.map (fun cd => specCommentText cd.1 cd.2.1 cd.2.2)).flatten) := by
  obtain ⟨terms, pub, ttl, summ, cdata2, _, _, _, hsumm, hc2, hd⟩ :=
    processPost_inv feedLink tg so key p d h
  rw [hc] at hc2
  injection hc2 with hc3
  subst hc3
  subst hd
  have hlen := extractComments_length p.comments cdata hc
  have hiso : cdata.isEmpty = p.comments.isEmpty := by
    revert hlen
    cases cdata <;> cases p.comments <;> intro hlen <;> simp_all
  rw [hsumm]
  show bodyWithoutComments _ so key summ ++ commentsSection key cdata = _
  unfold commentsSection
  rw [hiso, hlen]
  rfl

/-- The first comment of the claim's concrete example. -/
def aliceComment : Entry where
  link := some (("http://e/c1").toList)
  href := some (("h").toList)
  tags := some [("k#comment").toList]
  published := some (("2011-01-02T10:00:00Z").toList)
  title := some (("tc1").toList)
  summary := some (("CA").toList)
  authorName := some (("Alice").toList)
  inReplyTo := some (("http://e/a.html").toList)

/-- The second comment of the claim's concrete example. -/
def bobComment : Entry where
  link := some (("http://e/c2").toList)
  href := some (("h").toList)
  tags := some [("k#comment").toList]
  published := some (("2011-03-04T09:00:00Z").toList)
  title := some (("tc2").toList)
  summary := some (("CB").toList)
  authorName := some (("Bob").toList)
  inReplyTo := some (("http://e/a.html").toList)

/-- The sample post with the two comments of the claim's example
attached, in attachment order Alice then Bob. -/
def commentedPost : Post where
  entry := samplePostEntry
  comments := [aliceComment, bobComment]

/-- The document rendered for the commented sample post. -/
def commentedDoc : OutputDoc :=
  match processPost (("http://e/").toList) (("legacy-blogger").toList) true
      (("http://e/a.html").toList) commentedPost with
  | Except.ok (some d) => d
  | _ => { filename := [], frontMatter := [], body := [] }

set_option maxRecDepth 8192 in
/-- C8 witness: for a post with comments by Alice (published
2011-01-02T10:00:00Z) and Bob (published 2011-03-04T09:00:00Z), the
rendered body carries the comments block, containing the headers
"**Alice said on 2011-01-02**" and "**Bob said on 2011-03-04**" in
attachment order. -/
theorem comments_block_rendered_witness :
    processPost (("http://e/").toList) (("legacy-blogger").toList) true
      (("http://e/a.html").toList) commentedPost = Except.ok (some commentedDoc)
    ∧ extractComments commentedPost.comments
      = Except.ok [(("Alice").toList, ("2011-01-02T10:00:00Z").toList, ("CA").toList),
                   (("Bob").toList, ("2011-03-04T09:00:00Z").toList, ("CB").toList)]
    ∧ commentedDoc.body
      = bodyWithoutComments commentedDoc.frontMatter true (("http://e/a.html").toList)
          (commentedPost.entry.summary.getD [])
        ++ (if commentedPost.comments.isEmpty then []
            else ("\n\n---\n\n## ").toList ++ (Nat.repr commentedPost.comments.length).toList
              ++ ((" comments captured from [original post](").toList) ++ (("http://e/a.html").toList)
              ++ ((") on Blogger\n\n").toList)
              ++ (([(("Alice").toList, ("2011-01-02T10:00:00Z").toList, ("CA").toList),
                   (("Bob").toList, ("2011-03-04T09:00:00Z").toList, ("CB").toList)].map
                    (fun cd => specCommentText cd.1 cd.2.1 cd.2.2)).flatten))
    ∧ pyIn (("**Alice said on 2011-01-02**").toList) commentedDoc.body = true
    ∧ pyIn (("**Bob said on 2011-03-04**").toList) commentedDoc.body = true :=
  ⟨rfl, rfl,
    comments_block_rendered (("http://e/").toList) (("legacy-blogger").toList) true
      (("http://e/a.html").toList) commentedPost commentedDoc
      [(("Alice").toList, ("2011-01-02T10:00:00Z").toList, ("CA").toList),
       (("Bob").toList, ("2011-03-04T09:00:00Z").toList, ("CB").toList)] rfl rfl,
    by decide, by decide⟩

/-!
Claim C4: error handling of missing fields.
-/

/-- A comment entry whose reply-target field (`thr_in-reply-to`) is
missing — the single malformed entry of the C4 counterexample. -/
def badComment : Entry where
  link := some (("http://e/c9").toList)
  href := some (("h").toList)
  tags := some [("k#comment").toList]
  published := some (("2011-01-02T10:00:00Z").toList)
  title := some (("tc9").toList)
  summary := some (("CX").toList)
  authorName := some (("Zoe").toList)
  inReplyTo := none

/-- A feed containing one well-formed post and one comment with a missing
reply-target field. -/
def c4feed : Feed where
  feedLink := ("http://e/").toList
  entries := [samplePostEntry, badComment]

/-- C4 counterexample: a single comment whose `thr_in-reply-to` lookup
fails makes the whole run abort with an uncaught `KeyError` during
correlation — the correlation loop has no exception handler — instead of
warning, skipping that entry and continuing: no output is produced for the
well-formed post either. -/
theorem missing_field_aborts_run :
    runPipeline c4feed (("legacy-blogger").toList) true
      = Except.error (PyErr.keyError ("thr_in-reply-to")) := by
  rfl

/-- C4 (amended): only `KeyError` lookup failures inside the per-entry
classification loop are recovered — the entry is skipped with a logged
error and the loop continues.  A classification failure surfacing as an
`AttributeError` (the `link` or `category` attribute), and any missing
field during correlation (or rendering, which is likewise unguarded),
raises an uncaught exception that aborts the whole run. -/
theorem error_handling_amended (st : CState) (e e2 : Entry) (rest rest2 : List Entry)
    (k k2 : String) (d : PostsDict) (c : Entry) (cs : List Entry)
    (he : classifyEntry e = Except.error (PyErr.keyError k))
    (he2 : classifyEntry e2 = Except.error (PyErr.attrError k2))
    (hc : c.inReplyTo = none) :
    classifyFold st (e :: rest) = classifyFold { st with skipped := st.skipped ++ [k] } rest
    ∧ classifyFold st (e2 :: rest2) = Except.error (PyErr.attrError k2)
    ∧ correlateAll d (c :: cs) = Except.error (PyErr.keyError ("thr_in-reply-to")) := by
  refine ⟨?_, ?_, ?_⟩
  · simp [classifyFold, classifyStep, he]
  · simp [classifyFold, classifyStep, he2]
  · simp [correlateAll, hc]

/-- An entry whose alternate reference field (`entry["href"]`) is
missing: its classification fails with a caught `KeyError`. -/
def hrefLessEntry : Entry where
  link := some (("http://e/x.html").toList)
  href := none
  tags := some [("k").toList]
  published := none
  title := none
  summary := none
  authorName := none
  inReplyTo := none

/-- An entry with no category tags at all: its classification fails with
an uncaught `AttributeError`. -/
def tagLessEntry : Entry where
  link := some (("http://e/y.html").toList)
  href := some (("h").toList)
  tags := some []
  published := none
  title := none
  summary := none
  authorName := none
  inReplyTo := none

/-- C4 amended witness: a missing `href` is skipped and classification
continues; a missing category aborts classification; a missing reply
target aborts correlation. -/
theorem error_handling_amended_witness :
    classifyFold { posts := [], comments := [], skipped := [] } [hrefLessEntry]
      = classifyFold { posts := [], comments := [], skipped := [("href" : String)] } []
    ∧ classifyFold { posts := [], comments := [], skipped := [] } [tagLessEntry]
      = Except.error (PyErr.attrError ("category"))
    ∧ correlateAll [] [badComment] = Except.error (PyErr.keyError ("thr_in-reply-to")) :=
  error_handling_amended { posts := [], comments := [], skipped := [] } hrefLessEntry tagLessEntry
    [] [] ("href") ("category") [] badComment [] rfl rfl rfl

/-!
Claim C1: the comment-correlator guarantee.  The correlation loop is first
characterised as a per-post filter of the comments list, then the counting
and ownership properties follow.
-/

/-- Whether a comment's reply target equals the given post key. -/
def matchesKey (k : PyStr) (c : Entry) : Bool :=
  match c.inReplyTo with
  | none => false
  | some h => k == h

/-- Closed form of the correlation loop: every post receives, appended in
feed order, exactly the comments whose reply target equals its key. -/
def mapAttach (d : PostsDict) (cs : List Entry) : PostsDict :=
  d.map (fun kv =>
    (kv.1, { kv.2 with comments := kv.2.comments ++ cs.filter (fun c => matchesKey kv.1 c) }))

/-- Total number of comments attached across all posts. -/
def sumComments (d : PostsDict) : Nat :=
  (d.map (fun kv => kv.2.comments.length)).sum

/-- Attaching a comment preserves the keys of the dictionary. -/
theorem attachComment_fst (d : PostsDict) (k : PyStr) (c : Entry) :
    (attachComment d k c).map Prod.fst = d.map Prod.fst := by
  unfold attachComment
  rw [List.map_map]
  apply List.map_congr_left
  intro kv _
  by_cases hk : kv.1 = k <;> simp [hk]

/-- Attaching a comment does not change whether some key equals `h2`. -/
theorem attachComment_any_key (d : PostsDict) (k : PyStr) (c : Entry) (h2 : PyStr) :
    (attachComment d k c).any (fun kv => kv.1 == h2) = d.any (fun kv => kv.1 == h2) := by
  induction d with
  | nil => rfl
  | cons kv d2 ih =>
    unfold attachComment at ih ⊢
    simp only [List.map_cons, List.any_cons]
    rw [ih]
    by_cases hk : kv.1 = k <;> simp [hk]

/-- Attaching a comment does not change which reply targets have a post. -/
theorem hasPostFor_attach (d : PostsDict) (k : PyStr) (c x : Entry) :
    hasPostFor (attachComment d k c) x = hasPostFor d x := by
  cases hx : x.inReplyTo with
  | none => simp [hasPostFor, hx]
  | some h2 => simp [hasPostFor, hx, attachComment_any_key]

/-- Attaching the first comment then filtering the rest equals filtering
the whole list, post by post. -/
theorem mapAttach_cons_attach (d : PostsDict) (c : Entry) (rest : List Entry)
    (h2 : PyStr) (hir : c.inReplyTo = some h2) :
    mapAttach d (c :: rest) = mapAttach (attachComment d h2 c) rest := by
  unfold mapAttach attachComment
  rw [List.map_map]
  apply List.map_congr_left
  intro kv _
  by_cases hk : kv.1 == h2
  · simp [Function.comp, hk, List.filter_cons, matchesKey, hir, List.append_assoc]
  · simp [Function.comp, hk, List.filter_cons, matchesKey, hir]

/-- A comment matching no key is invisible to `mapAttach`. -/
theorem mapAttach_cons_skip (d : PostsDict) (c : Entry) (rest : List Entry)
    (hno : hasPostFor d c = false) :
    mapAttach d (c :: rest) = mapAttach d rest := by
  unfold mapAttach
  apply List.map_congr_left
  intro kv hkv
  have hm : matchesKey kv.1 c = false := by
    unfold matchesKey
    cases hir : c.inReplyTo with
    | none => rfl
    | some h2 =>
      unfold hasPostFor at hno
      rw [hir] at hno
      rw [List.any_eq_false] at hno
      exact Bool.eq_false_iff.2 fun hkk => (hno kv hkv) hkk
  simp [List.filter_cons, hm]

/-- Filtering the empty comments list leaves every post unchanged. -/
theorem mapAttach_nil (d : PostsDict) : mapAttach d [] = d := by
  unfold mapAttach
  have h : ∀ kv ∈ d,
      (kv.1, { kv.2 with comments := kv.2.comments ++ List.filter (fun c => matchesKey kv.1 c) [] }) = kv := by
    intro kv _
    simp
  rw [List.map_congr_left h]
  simp

/-- Characterisation of a successful correlation run: the resulting posts
dictionary is `mapAttach`, and the orphans are exactly the comments whose
reply target matches no key of the dictionary. -/
theorem correlateAll_ok_eq (cs : List Entry) : ∀ (d p : PostsDict) (orphans : List Entry),
    correlateAll d cs = Except.ok (p, orphans) →
    p = mapAttach d cs ∧ orphans = cs.filter (fun c => !(hasPostFor d c)) := by
  induction cs with
  | nil =>
    intro d p orphans h
    simp only [correlateAll, Except.ok.injEq, Prod.mk.injEq] at h
    obtain ⟨hp, ho⟩ := h
    subst hp; subst ho
    exact ⟨(mapAttach_nil d).symm, by simp⟩
  | cons c rest ih =>
    intro d p orphans h
    unfold correlateAll at h
    split at h
    · simp at h
    next h2 hir =>
      split at h
      next hany =>
        split at h
        · simp at h
        next d2 or2 hrec =>
          simp only [Except.ok.injEq, Prod.mk.injEq] at h
          obtain ⟨hp, ho⟩ := h
          subst hp; subst ho
          obtain ⟨ha, hb⟩ := ih (attachComment d h2 c) d2 or2 hrec
          have hpf : hasPostFor d c = true := by
            simp only [hasPostFor, hir]
            exact hany
          refine ⟨?_, ?_⟩
          · rw [mapAttach_cons_attach d c rest h2 hir]
            exact ha
          · rw [hb, List.filter_cons]
            simp only [hpf, Bool.not_true]
            rw [if_neg (by simp)]
            apply List.filter_congr
            intro x _
            rw [hasPostFor_attach]
      next hany =>
        split at h
        · simp at h
        next t ht =>
          split at h
          · simp at h
          next d2 or2 hrec =>
            simp only [Except.ok.injEq, Prod.mk.injEq] at h
            obtain ⟨hp, ho⟩ := h
            subst hp; subst ho
            obtain ⟨ha, hb⟩ := ih d d2 or2 hrec
            have hpf : hasPostFor d c = false := by
              simp only [hasPostFor, hir]
              exact Bool.eq_false_iff.2 hany
            refine ⟨?_, ?_⟩
            · rw [mapAttach_cons_skip d c rest hpf]
              exact ha
            · rw [List.filter_cons]
              simp only [hpf, Bool.not_false]
              rw [hb]
              simp

/-- No key of the dictionary equals `h2` once `h2` is not among the
keys. -/
theorem countP_key_zero (d : PostsDict) (h2 : PyStr) (h : h2 ∉ d.map Prod.fst) :
    d.countP (fun kv => kv.1 == h2) = 0 := by
  rw [List.countP_eq_zero]
  intro kv hkv
  simp only [beq_iff_eq]
  intro he
  exact h (List.mem_map.mpr ⟨kv, hkv, he⟩)

/-- With pairwise-distinct keys, the number of entries under a given key
is one when the key is present and zero otherwise. -/
theorem countP_key_nodup (d : PostsDict) (h2 : PyStr) (hnd : (d.map Prod.fst).Nodup) :
    d.countP (fun kv => kv.1 == h2) = if d.any (fun kv => kv.1 == h2) then 1 else 0 := by
  induction d with
  | nil => rfl
  | cons kv d2 ih =>
    simp only [List.map_cons, List.nodup_cons] at hnd
    obtain ⟨hnot, hnd2⟩ := hnd
    rw [List.countP_cons, List.any_cons]
    by_cases hk : kv.1 = h2
    · have h0 : d2.countP (fun kv2 => kv2.1 == h2) = 0 := countP_key_zero d2 h2 (hk ▸ hnot)
      have hk2 : (kv.1 == h2) = true := by simp [hk]
      rw [hk2, h0, Bool.true_or]
      simp only [eq_self_iff_true, if_true, Nat.zero_add]
    · have hk2 : (kv.1 == h2) = false := by simp [hk]
      rw [ih hnd2, hk2, Bool.false_or]
      simp only [Bool.false_eq_true, if_false, Nat.add_zero]

/-- The number of posts matched by a comment, expressed through its reply
target. -/
theorem countP_matches (d : PostsDict) (c : Entry) (h2 : PyStr)
    (hir : c.inReplyTo = some h2) :
    d.countP (fun kv => matchesKey kv.1 c) = d.countP (fun kv => kv.1 == h2) := by
  apply List.countP_congr
  intro kv _
  simp [matchesKey, hir]

/-- A comment with no reply target matches no post. -/
theorem countP_matches_none (d : PostsDict) (c : Entry) (hir : c.inReplyTo = none) :
    d.countP (fun kv => matchesKey kv.1 c) = 0 := by
  rw [List.countP_eq_zero]
  intro kv _
  simp [matchesKey, hir]

/-- Attaching one more comment adds, across all posts, exactly the number
of posts whose key equals its reply target. -/
theorem sum_mapAttach_cons (d : PostsDict) (c : Entry) (rest : List Entry) :
    sumComments (mapAttach d (c :: rest))
      = d.countP (fun kv => matchesKey kv.1 c) + sumComments (mapAttach d rest) := by
  induction d with
  | nil => rfl
  | cons kv d2 ih =>
    simp only [mapAttach, sumComments, List.map_cons, List.sum_cons, List.countP_cons] at ih ⊢
    rw [List.filter_cons]
    by_cases hm : matchesKey kv.1 c
    · simp only [hm, if_pos] at *
      simp only [List.length_append, List.length_cons] at *
      omega
    · simp only [hm, Bool.false_eq_true, if_false] at *
      simp only [List.length_append] at *
      omega

/-- Counting part of the correlator guarantee: with pairwise-distinct post
keys, attached plus orphaned comments add up to all comments. -/
theorem mapAttach_count (d : PostsDict) (hnd : (d.map Prod.fst).Nodup) (cs : List Entry) :
    sumComments (mapAttach d cs) + (cs.filter (fun c => !(hasPostFor d c))).length
      = sumComments d + cs.length := by
  induction cs with
  | nil => simp [mapAttach_nil]
  | cons c rest ih =>
    rw [sum_mapAttach_cons, List.filter_cons]
    cases hir : c.inReplyTo with
    | none =>
      have h0 := countP_matches_none d c hir
      have hpf : hasPostFor d c = false := by simp [hasPostFor, hir]
      rw [h0, hpf]
      simp only [Bool.not_false, if_pos, List.length_cons]
      omega
    | some h2 =>
      have hcp : d.countP (fun kv => matchesKey kv.1 c)
          = if d.any (fun kv => kv.1 == h2) then 1 else 0 := by
        rw [countP_matches d c h2 hir]
        exact countP_key_nodup d h2 hnd
      have hpf : hasPostFor d c = d.any (fun kv => kv.1 == h2) := by
        simp [hasPostFor, hir]
      by_cases hany : d.any (fun kv => kv.1 == h2)
      · rw [hcp, hpf, hany]
        simp
        omega
      · have hany2 : d.any (fun kv => kv.1 == h2) = false := Bool.eq_false_iff.2 hany
        rw [hcp, hpf, hany2]
        simp
        omega

/-- Decomposition of membership in the attached dictionary. -/
theorem mapAttach_mem (d : PostsDict) (cs : List Entry) (kv2 : PyStr × Post)
    (h : kv2 ∈ mapAttach d cs) :
    ∃ kv ∈ d, kv2 = (kv.1,
      { entry := kv.2.entry, comments := kv.2.comments ++ cs.filter (fun c => matchesKey kv.1 c) }) := by
  unfold mapAttach at h
  rw [List.mem_map] at h
  obtain ⟨kv, hkv, he⟩ := h
  exact ⟨kv, hkv, he.symm⟩

/-- Attaching comments preserves the keys. -/
theorem mapAttach_fst (d : PostsDict) (cs : List Entry) :
    (mapAttach d cs).map Prod.fst = d.map Prod.fst := by
  unfold mapAttach
  rw [List.map_map]
  apply List.map_congr_left
  intro kv _
  rfl

/-- In a list with pairwise-distinct keys, two members with the same key
are the same member. -/
theorem nodup_fst_mem_eq (l : PostsDict) (hnd : (l.map Prod.fst).Nodup)
    (a b : PyStr × Post) (ha : a ∈ l) (hb : b ∈ l) (hf : a.1 = b.1) : a = b := by
  induction l with
  | nil => cases ha
  | cons x t ih =>
    simp only [List.map_cons, List.nodup_cons] at hnd
    obtain ⟨hx, hnd2⟩ := hnd
    rcases List.mem_cons.mp ha with ha2 | ha2 <;> rcases List.mem_cons.mp hb with hb2 | hb2
    · rw [ha2, hb2]
    · exfalso
      apply hx
      subst ha2
      rw [hf]
      exact List.mem_map.mpr ⟨b, hb2, rfl⟩
    · exfalso
      apply hx
      subst hb2
      rw [← hf]
      exact List.mem_map.mpr ⟨a, ha2, rfl⟩
    · exact ih hnd2 ha2 hb2

/-- A classified post carries its dictionary key as its link. -/
theorem classifyEntry_post_link (e : Entry) (l : PyStr)
    (h : classifyEntry e = Except.ok (ClassifyResult.isPost l)) : e.link = some l := by
  unfold classifyEntry at h
  repeat' split at h
  all_goals first
    | (simp only [Except.ok.injEq, ClassifyResult.isPost.injEq] at h
       subst h
       assumption)
    | simp at h

/-- Python dict insertion preserves distinctness of the keys. -/
theorem dictInsert_fst_nodup (d : PostsDict) (k : PyStr) (v : Post)
    (hnd : (d.map Prod.fst).Nodup) : ((dictInsert d k v).map Prod.fst).Nodup := by
  unfold dictInsert
  by_cases hany : d.any (fun kv => kv.1 == k)
  · rw [if_pos hany]
    have he : (d.map (fun kv => if kv.1 == k then (k, v) else kv)).map Prod.fst
        = d.map Prod.fst := by
      rw [List.map_map]
      apply List.map_congr_left
      intro kv _
      by_cases hk : kv.1 = k <;> simp [hk]
    rw [he]
    exact hnd
  · rw [if_neg hany, List.map_append]
    refine List.Nodup.append hnd ?_ ?_
    · simp
    · intro a ha hb
      simp only [List.map_cons, List.map_nil, List.mem_singleton] at hb
      have hany2 : d.any (fun kv => kv.1 == k) = false := Bool.eq_false_iff.2 hany
      rw [List.any_eq_false] at hany2
      rw [List.mem_map] at ha
      obtain ⟨kv, hkv, he⟩ := ha
      exact hany2 kv hkv (by simp [he, hb])

/-- Python dict insertion of a fresh empty-comments post preserves the
posts-dictionary invariant. -/
theorem dictInsert_props (d : PostsDict) (k : PyStr) (v : Post)
    (hall : ∀ kv ∈ d, kv.2.comments = [] ∧ kv.2.entry.link = some kv.1)
    (hv : v.comments = [] ∧ v.entry.link = some k) :
    ∀ kv ∈ dictInsert d k v, kv.2.comments = [] ∧ kv.2.entry.link = some kv.1 := by
  intro kv hkv
  unfold dictInsert at hkv
  by_cases hany : d.any (fun kv2 => kv2.1 == k)
  · rw [if_pos hany, List.mem_map] at hkv
    obtain ⟨kv0, hkv0, he⟩ := hkv
    by_cases hk : kv0.1 = k
    · simp only [hk, beq_self_eq_true, if_pos] at he
      rw [← he]
      exact hv
    · have hk2 : (kv0.1 == k) = false := by simp [hk]
      rw [hk2] at he
      simp only [Bool.false_eq_true, if_false] at he
      rw [← he]
      exact hall kv0 hkv0
  · rw [if_neg hany] at hkv
    rcases List.mem_append.mp hkv with hm | hm
    · exact hall kv hm
    · simp only [List.mem_singleton] at hm
      subst hm
      exact hv

/-- One classification step preserves the posts-dictionary invariant. -/
theorem classifyStep_inv (st st2 : CState) (e : Entry)
    (hnd : (st.posts.map Prod.fst).Nodup)
    (hall : ∀ kv ∈ st.posts, kv.2.comments = [] ∧ kv.2.entry.link = some kv.1)
    (h : classifyStep st e = Except.ok st2) :
    (st2.posts.map Prod.fst).Nodup
    ∧ ∀ kv ∈ st2.posts, kv.2.comments = [] ∧ kv.2.entry.link = some kv.1 := by
  unfold classifyStep at h
  split at h
  · simp only [Except.ok.injEq] at h
    subst h
    exact ⟨hnd, hall⟩
  · simp at h
  · simp only [Except.ok.injEq] at h
    subst h
    exact ⟨hnd, hall⟩
  · simp only [Except.ok.injEq] at h
    subst h
    exact ⟨hnd, hall⟩
  next l heq =>
    simp only [Except.ok.injEq] at h
    subst h
    refine ⟨dictInsert_fst_nodup st.posts l _ hnd, dictInsert_props st.posts l _ hall ?_⟩
    exact ⟨rfl, classifyEntry_post_link e l heq⟩

/-- The classification loop preserves the posts-dictionary invariant. -/
theorem classifyFold_inv (entries : List Entry) : ∀ (st st2 : CState),
    (st.posts.map Prod.fst).Nodup →
    (∀ kv ∈ st.posts, kv.2.comments = [] ∧ kv.2.entry.link = some kv.1) →
    classifyFold st entries = Except.ok st2 →
    (st2.posts.map Prod.fst).Nodup
    ∧ ∀ kv ∈ st2.posts, kv.2.comments = [] ∧ kv.2.entry.link = some kv.1 := by
  induction entries with
  | nil =>
    intro st st2 h1 h2 h
    simp only [classifyFold, Except.ok.injEq] at h
    subst h
    exact ⟨h1, h2⟩
  | cons e rest ih =>
    intro st st2 h1 h2 h
    unfold classifyFold at h
    split at h
    · simp at h
    next st3 hstep =>
      obtain ⟨h3, h4⟩ := classifyStep_inv st st3 e h1 h2 hstep
      exact ih st3 st2 h3 h4 h

/-- Posts fresh from classification carry no comments. -/
theorem sumComments_zero (d : PostsDict) (h : ∀ kv ∈ d, kv.2.comments = []) :
    sumComments d = 0 := by
  unfold sumComments
  apply List.sum_eq_zero
  intro x hx
  rw [List.mem_map] at hx
  obtain ⟨kv, hkv, he⟩ := hx
  rw [← he, h kv hkv]
  rfl

/-- C1: after the correlator runs on the classifier's output, attached
comments plus orphaned comments account exactly for all classified
comments; each attached comment sits under the post whose link equals its
reply target; and no comment is attached to more than one post. -/
theorem correlator_guarantee (entries : List Entry) (st : CState) (p : PostsDict)
    (orphans : List Entry)
    (hclass : classifyEntries entries = Except.ok st)
    (hcorr : correlateAll st.posts st.comments = Except.ok (p, orphans)) :
    sumComments p + orphans.length = st.comments.length
    ∧ (∀ kv ∈ p, ∀ c ∈ kv.2.comments, c.inReplyTo = some kv.1 ∧ kv.2.entry.link = some kv.1)
    ∧ (∀ kv1 ∈ p, ∀ kv2 ∈ p, ∀ c : Entry,
        c ∈ kv1.2.comments → c ∈ kv2.2.comments → kv1 = kv2) := by
  obtain ⟨hnd, hall⟩ := classifyFold_inv entries { posts := [], comments := [], skipped := [] }
    st (by simp) (by simp) hclass
  obtain ⟨hp, ho⟩ := correlateAll_ok_eq st.comments st.posts p orphans hcorr
  subst hp
  subst ho
  have hmem : ∀ kv ∈ mapAttach st.posts st.comments, ∀ c ∈ kv.2.comments,
      c.inReplyTo = some kv.1 ∧ kv.2.entry.link = some kv.1 := by
    intro kv hkv c hc
    obtain ⟨kv0, hkv0, he⟩ := mapAttach_mem st.posts st.comments kv hkv
    subst he
    have hcm : kv0.2.comments = [] := (hall kv0 hkv0).1
    simp only [hcm, List.nil_append] at hc
    rw [List.mem_filter] at hc
    obtain ⟨_, hm⟩ := hc
    cases hir : c.inReplyTo with
    | none => rw [matchesKey, hir] at hm; simp at hm
    | some h2 =>
      rw [matchesKey, hir] at hm
      simp only [beq_iff_eq] at hm
      refine ⟨?_, ?_⟩
      · show (some h2 : Option PyStr) = some kv0.1
        rw [hm]
      · show kv0.2.entry.link = some kv0.1
        exact (hall kv0 hkv0).2
  refine ⟨?_, hmem, ?_⟩
  · have hz : sumComments st.posts = 0 :=
      sumComments_zero st.posts (fun kv hkv => (hall kv hkv).1)
    have hcount := mapAttach_count st.posts hnd st.comments
    omega
  · intro kv1 hkv1 kv2 hkv2 c hc1 hc2
    have h1 := (hmem kv1 hkv1 c hc1).1
    have h2 := (hmem kv2 hkv2 c hc2).1
    rw [h1] at h2
    injection h2 with h3
    have hnd2 : ((mapAttach st.posts st.comments).map Prod.fst).Nodup := by
      rw [mapAttach_fst]
      exact hnd
    exact nodup_fst_mem_eq (mapAttach st.posts st.comments) hnd2 kv1 kv2 hkv1 hkv2 h3

/-- A second well-formed post entry. -/
def postBEntry : Entry where
  link := some (("http://e/b.html").toList)
  href := some (("h").toList)
  tags := some [kindPostMarker]
  published := some (("2012-01-01T00:00:00Z").toList)
  title := some (("U").toList)
  summary := some (("SB").toList)
  authorName := none
  inReplyTo := none

/-- A comment whose reply target matches no post link. -/
def orphanComment : Entry where
  link := some (("http://e/c3").toList)
  href := some (("h").toList)
  tags := some [("k#comment").toList]
  published := some (("2013-01-01T00:00:00Z").toList)
  title := some (("lost").toList)
  summary := some (("CO").toList)
  authorName := some (("Eve").toList)
  inReplyTo := some (("http://e/zzz.html").toList)

/-- The concrete feed entries of the C1 witness: two posts, two comments
attached to the first post, one orphan. -/
def c1entries : List Entry :=
  [samplePostEntry, postBEntry, aliceComment, bobComment, orphanComment]

/-- The classifier state on the C1 witness entries. -/
def c1state : CState :=
  match classifyEntries c1entries with
  | Except.ok st => st
  | Except.error _ => { posts := [], comments := [], skipped := [] }

/-- The correlator result on the C1 witness entries. -/
def c1res : PostsDict × List Entry :=
  match correlateAll c1state.posts c1state.comments with
  | Except.ok pr => pr
  | Except.error _ => ([], [])

/-- C1 witness: on the concrete feed with two posts, two comments replying
to the first post, and one orphan, the correlator guarantee holds. -/
theorem correlator_guarantee_witness :
    classifyEntries c1entries = Except.ok c1state
    ∧ correlateAll c1state.posts c1state.comments = Except.ok (c1res.1, c1res.2)
    ∧ (sumComments c1res.1 + c1res.2.length = c1state.comments.length
      ∧ (∀ kv ∈ c1res.1, ∀ c ∈ kv.2.comments, c.inReplyTo = some kv.1 ∧ kv.2.entry.link = some kv.1)
      ∧ (∀ kv1 ∈ c1res.1, ∀ kv2 ∈ c1res.1, ∀ c : Entry,
          c ∈ kv1.2.comments → c ∈ kv2.2.comments → kv1 = kv2)) :=
  ⟨rfl, rfl, correlator_guarantee c1entries c1state c1res.1 c1res.2 rfl rfl⟩

